import Mathlib

/-!
Verification of the WireGuard provisioning bot (`wg_bot.py`).

The development shallowly embeds the registry-backed variant of the bot
(`opt/wg-bot/wg_bot.py`): the sqlite `peers` table becomes a list of
`Peer` records in insertion order, the live interface's peer table
becomes a list of `(publicKey, allowedIps)` pairs, and each Telegram
handler becomes a pure function from the handler's inputs, the outcomes
of the external `wg` toolchain invocations (supplied as oracle
parameters, since the toolchain is an external black box), and the
current state to a reply value and the next state.
-/

namespace WgBot

/-- Server-side configuration, loaded once from the environment
(`SERVER_PUBLIC_KEY`, `SERVER_PUBLIC_IP`, `SERVER_WG_PORT`,
`SERVER_INTERFACE`, `CLIENT_BASE`, `CLIENT_START`, `CLIENT_MAX`,
`APPLY_PEER`, `TG_ADMIN_CHAT_ID`). -/
structure Config where
  serverPublicKey : String
  serverPublicIp : String
  serverWgPort : Nat
  serverInterface : String
  clientBase : String
  clientStart : Nat
  clientMax : Nat
  applyPeer : Bool
  adminChatId : Option String
deriving Repr, DecidableEq

/-- One row of the sqlite `peers` table (the `id` and `created_at`
columns are represented by the row's position in the registry list and
are not otherwise used by the verified operations). -/
structure Peer where
  name : String
  private_key : String
  public_key : String
  address : String
deriving Repr, DecidableEq

/-- The mutable state: the registry (rows of the `peers` table in
insertion order) and the live interface's peer table, a list of
(public key, allowed-ips) entries. -/
structure World where
  registry : List Peer
  iface : List (String × String)
deriving Repr, DecidableEq

/-- The empty initial state: fresh database, no peers on the interface. -/
def emptyWorld : World := World.mk [] []

/-- Outcome of one external `wg` process invocation: either spawning the
process raised an exception (`exc`), or the process ran and exited with
the given return code and stderr text (`ran`). -/
inductive CmdOutcome where
  | exc (msg : String)
  | ran (returncode : Nat) (stderr : String)
deriving Repr, DecidableEq

/-- `next_free_ip`'s scan loop: `for i in range(CLIENT_START, CLIENT_MAX + 1)`,
returning the first `CLIENT_BASE + str(i)` not in the used set.  `fuel` is
the number of loop iterations left and `i` the current loop index. -/
def nextFreeIpAux (base : String) (used : List String) : Nat → Nat → Option String
  | 0, _ => none
  | fuel + 1, i =>
    let ip := base ++ toString i
    if ip ∈ used then nextFreeIpAux base used fuel (i + 1) else some ip

/-- `next_free_ip()`: scans addresses `CLIENT_BASE + str(i)` for
`i = CLIENT_START .. CLIENT_MAX` in ascending order and returns the first
one not in `used` (the set of addresses currently in the registry);
`none` models the `RuntimeError("No free IPs left in pool")`. -/
def next_free_ip (cfg : Config) (used : List String) : Option String :=
  nextFreeIpAux cfg.clientBase used (cfg.clientMax + 1 - cfg.clientStart) cfg.clientStart

/-- The message of the `RuntimeError` raised on pool exhaustion. -/
def poolExhaustedMsg : String := "No free IPs left in pool"

/-- `make_conf(client_priv, client_ip)`: renders the client profile
f-string exactly as in the source. -/
def make_conf (cfg : Config) (client_priv client_ip : String) : String :=
  "[Interface]\nPrivateKey = " ++ client_priv ++
  "\nAddress = " ++ client_ip ++ "/32\nDNS = 1.1.1.1\n\n[Peer]\nPublicKey = " ++
  cfg.serverPublicKey ++ "\nEndpoint = " ++ cfg.serverPublicIp ++ ":" ++
  toString cfg.serverWgPort ++
  "\nAllowedIPs = 0.0.0.0/0, ::/0\nPersistentKeepalive = 25\n"

/-- Effect of a successful `wg set <if> peer <pub> allowed-ips <aip>` on the
interface's peer table: update the entry for `pub` if present, else add it. -/
def wgSetPeer (iface : List (String × String)) (pub aip : String) :
    List (String × String) :=
  if iface.any (fun e => e.1 == pub) then
    iface.map (fun e => if e.1 == pub then (pub, aip) else e)
  else iface ++ [(pub, aip)]

/-- Effect of a successful `wg set <if> peer <pub> remove` on the
interface's peer table. -/
def wgRemovePeer (iface : List (String × String)) (pub : String) :
    List (String × String) :=
  iface.filter (fun e => e.1 != pub)

/-- `apply_peer_to_interface(client_pub, client_ip)`: a no-op when
`APPLY_PEER` is disabled; otherwise runs `wg set`, raising
`RuntimeError("wg set failed: " + stderr)` on a non-zero exit (and
propagating a spawn exception).  Returns the updated interface table on
success. -/
def apply_peer_to_interface (cfg : Config) (ap : CmdOutcome)
    (iface : List (String × String)) (pub aip : String) :
    Except String (List (String × String)) :=
  if cfg.applyPeer then
    match ap with
    | CmdOutcome.exc m => Except.error m
    | CmdOutcome.ran 0 _ => Except.ok (wgSetPeer iface pub aip)
    | CmdOutcome.ran (_ + 1) err => Except.error ("wg set failed: " ++ err)
  else Except.ok iface

/-- Reply produced by the `/newclient` handler. -/
inductive NCResult where
  | usageError
  | stepError (msg : String)
  | duplicateName
  | provisioned (applyError : Option String) (conf : String) (name address : String)
deriving Repr, DecidableEq

/-- The `/newclient` handler.  `gen` is the outcome of `gen_keypair()`
(an `Except` since every toolchain failure there raises and is reported
as one message) and `ap` the outcome of the `wg set` invocation inside
`apply_peer_to_interface`.  Order as in the source: argument check,
key generation, address allocation, `INSERT` (rejected on the UNIQUE
`name` constraint), interface application (failure reported but the row
kept), profile rendering. -/
def newclient (cfg : Config) (gen : Except String (String × String))
    (ap : CmdOutcome) (args : List String) (w : World) : NCResult × World :=
  match args with
  | [] => (NCResult.usageError, w)
  | name :: _ =>
    match gen with
    | Except.error e => (NCResult.stepError e, w)
    | Except.ok (priv, pub) =>
      match next_free_ip cfg (w.registry.map Peer.address) with
      | none => (NCResult.stepError poolExhaustedMsg, w)
      | some ip =>
        if w.registry.any (fun p => p.name == name) then
          (NCResult.duplicateName, w)
        else
          let reg1 : List Peer := w.registry ++ [Peer.mk name priv pub ip]
          match apply_peer_to_interface cfg ap w.iface pub (ip ++ "/32") with
          | Except.error m =>
            (NCResult.provisioned (some m) (make_conf cfg priv ip) name ip,
             World.mk reg1 w.iface)
          | Except.ok iface2 =>
            (NCResult.provisioned none (make_conf cfg priv ip) name ip,
             World.mk reg1 iface2)

/-- Admin gate shared by `/list` and `/revoke`:
`ADMIN_CHAT_ID and str(chat.id) != str(ADMIN_CHAT_ID)`. -/
def isAdminDenied (cfg : Config) (chatId : String) : Bool :=
  match cfg.adminChatId with
  | some a => chatId != a
  | none => false

/-- Reply produced by the `/list` handler. -/
inductive LCResult where
  | accessDenied
  | noClients
  | listing (lines : List String)
deriving Repr, DecidableEq

/-- The `/list` handler: admin-gated listing of name and address of every
registry row in insertion order. -/
def list_clients (cfg : Config) (chatId : String) (w : World) : LCResult × World :=
  if isAdminDenied cfg chatId then (LCResult.accessDenied, w)
  else if w.registry.isEmpty then (LCResult.noClients, w)
  else (LCResult.listing (w.registry.map (fun p => p.name ++ " — " ++ p.address)), w)

/-- Reply produced by the `/config` handler. -/
inductive GCResult where
  | usageError
  | notFound
  | configFile (fileName : String) (conf : String)
deriving Repr, DecidableEq

/-- The `/config` handler: looks the name up in the registry and renders
the profile from the stored row.  It reads `chatId` from the update but
performs no admin check and never mutates the state. -/
def get_config (cfg : Config) (chatId : String) (args : List String)
    (w : World) : GCResult × World :=
  match args with
  | [] => (GCResult.usageError, w)
  | name :: _ =>
    match w.registry.find? (fun p => p.name == name) with
    | none => (GCResult.notFound, w)
    | some row =>
      (GCResult.configFile (name ++ ".conf")
        (make_conf cfg row.private_key row.address), w)

/-- Reply produced by the `/revoke` handler. -/
inductive RVResult where
  | usageError
  | accessDenied
  | notFound
  | revoked (name address : String) (removeError : Option String)
deriving Repr, DecidableEq

/-- What the `/revoke` handler reports about its removal step: the
`except` branch reports a spawn exception, but the return code of the
`wg set ... remove` invocation is never inspected, so a non-zero exit is
silent. -/
def removeReport : CmdOutcome → Option String
  | CmdOutcome.exc m => some m
  | CmdOutcome.ran _ _ => none

/-- Whether the removal command actually removed the interface entry:
only when the process ran and exited with status 0. -/
def removeApplied : CmdOutcome → Bool
  | CmdOutcome.ran 0 _ => true
  | _ => false

/-- The `/revoke` handler.  Order as in the source: argument check, admin
gate, registry lookup, best-effort `wg set ... remove` when `APPLY_PEER`
is enabled (exception reported, return code ignored, deletion never
blocked), then `DELETE FROM peers WHERE name=?`. -/
def revoke (cfg : Config) (rm : CmdOutcome) (chatId : String)
    (args : List String) (w : World) : RVResult × World :=
  match args with
  | [] => (RVResult.usageError, w)
  | name :: _ =>
    if isAdminDenied cfg chatId then (RVResult.accessDenied, w)
    else
      match w.registry.find? (fun p => p.name == name) with
      | none => (RVResult.notFound, w)
      | some row =>
        let iface2 : List (String × String) :=
          if cfg.applyPeer ∧ removeApplied rm then
            wgRemovePeer w.iface row.public_key
          else w.iface
        let report : Option String :=
          if cfg.applyPeer then removeReport rm else none
        (RVResult.revoked name row.address report,
         World.mk (w.registry.filter (fun p => p.name != name)) iface2)

/-- One serialized bot operation together with the outcomes of the
toolchain invocations it performs. -/
inductive Op where
  | newc (gen : Except String (String × String)) (ap : CmdOutcome)
      (args : List String)
  | rev (rm : CmdOutcome) (chatId : String) (args : List String)

/-- State transition of one operation (the reply is discarded). -/
def runOp (cfg : Config) (w : World) : Op → World
  | Op.newc gen ap args => (newclient cfg gen ap args w).2
  | Op.rev rm chatId args => (revoke cfg rm chatId args w).2

/-- State reached by a serialized sequence of operations. -/
def runOps (cfg : Config) (w : World) : List Op → World
  | [] => w
  | op :: ops => runOps cfg (runOp cfg w op) ops

/-- An address of the form `CLIENT_BASE + str(i)` with
`CLIENT_START ≤ i ≤ CLIENT_MAX`: it lies in the configured inclusive
pool range of the base network. -/
def addrInPool (cfg : Config) (a : String) : Prop :=
  ∃ i : Nat, cfg.clientStart ≤ i ∧ i ≤ cfg.clientMax ∧
    a = cfg.clientBase ++ toString i

/-- Every entry of the interface's peer table belongs to some registry
row (the interface is a subset of the registry). -/
def IfaceSubset (w : World) : Prop :=
  ∀ e ∈ w.iface, ∃ p, p ∈ w.registry ∧ p.public_key = e.1

/-- `ip` is the first free address of the pool: it has the form
`base + str(i)` for an index in the inclusive configured range, is not
used, and every pool address strictly before it is used. -/
def FirstFreeInPool (cfg : Config) (used : List String) (ip : String) : Prop :=
  ∃ i : Nat, cfg.clientStart ≤ i ∧ i ≤ cfg.clientMax ∧
    ip = cfg.clientBase ++ toString i ∧ ip ∉ used ∧
    ∀ j : Nat, cfg.clientStart ≤ j → j < i → cfg.clientBase ++ toString j ∈ used

lemma nextFreeIpAux_some (base : String) (used : List String) :
    ∀ (fuel i : Nat) (ip : String), nextFreeIpAux base used fuel i = some ip →
      ip ∉ used ∧ ∃ j : Nat, i ≤ j ∧ j < i + fuel ∧ ip = base ++ toString j ∧
        ∀ k : Nat, i ≤ k → k < j → base ++ toString k ∈ used := by
  intro fuel
  induction fuel with
  | zero => intro i ip h; simp [nextFreeIpAux] at h
  | succ n ih =>
    intro i ip h
    by_cases hmem : (base ++ toString i) ∈ used
    · rw [nextFreeIpAux, if_pos hmem] at h
      obtain ⟨h1, j, hj1, hj2, hj3, hj4⟩ := ih (i + 1) ip h
      refine ⟨h1, j, by omega, by omega, hj3, ?_⟩
      intro k hk1 hk2
      rcases Nat.eq_or_lt_of_le hk1 with heq | hlt
      · rw [← heq]; exact hmem
      · exact hj4 k hlt hk2
    · rw [nextFreeIpAux, if_neg hmem] at h
      obtain rfl : base ++ toString i = ip := by simpa using h
      exact ⟨hmem, i, Nat.le_refl i, by omega, rfl, fun k hk1 hk2 => by omega⟩

lemma nextFreeIpAux_none (base : String) (used : List String) :
    ∀ (fuel i : Nat), nextFreeIpAux base used fuel i = none →
      ∀ k : Nat, i ≤ k → k < i + fuel → base ++ toString k ∈ used := by
  intro fuel
  induction fuel with
  | zero => intro i h k hk1 hk2; omega
  | succ n ih =>
    intro i h k hk1 hk2
    by_cases hmem : (base ++ toString i) ∈ used
    · rw [nextFreeIpAux, if_pos hmem] at h
      rcases Nat.eq_or_lt_of_le hk1 with heq | hlt
      · rw [← heq]; exact hmem
      · exact ih (i + 1) h k hlt (by omega)
    · rw [nextFreeIpAux, if_neg hmem] at h
      simp at h

lemma next_free_ip_some {cfg : Config} {used : List String} {ip : String}
    (h : next_free_ip cfg used = some ip) : FirstFreeInPool cfg used ip := by
  obtain ⟨h1, j, hj1, hj2, hj3, hj4⟩ :=
    nextFreeIpAux_some cfg.clientBase used _ _ ip h
  exact ⟨j, hj1, by omega, hj3, h1, fun k hk1 hk2 => hj4 k hk1 hk2⟩

lemma next_free_ip_none {cfg : Config} {used : List String}
    (h : next_free_ip cfg used = none) :
    ∀ j : Nat, cfg.clientStart ≤ j → j ≤ cfg.clientMax →
      cfg.clientBase ++ toString j ∈ used := by
  intro j hj1 hj2
  exact nextFreeIpAux_none cfg.clientBase used _ _ h j hj1 (by omega)

/-- Small configuration with a pool of exactly two addresses
(`10.0.0.2` and `10.0.0.3`), live mutation disabled, no admin id. -/
def cfgPool2 : Config :=
  Config.mk "SPK" "203.0.113.7" 51820 "wg0" "10.0.0." 2 3 false none

/-- C2: the allocator scans the inclusive pool range in ascending numeric
order and returns the first address not in the used set; it fails
(raising the pool-exhausted error) exactly when every pool address is
used.  Concretely, in the pool of size 2 with start 2 and end 3, two
`newclient` calls succeed with addresses `10.0.0.2` and `10.0.0.3`, and
a third fails with the pool-exhausted error. -/
theorem next_free_ip_first_free_and_exhaustion (cfg : Config) (used : List String) :
    (∀ ip : String, next_free_ip cfg used = some ip → FirstFreeInPool cfg used ip) ∧
    ((∀ j : Nat, cfg.clientStart ≤ j → j ≤ cfg.clientMax →
        cfg.clientBase ++ toString j ∈ used) → next_free_ip cfg used = none) ∧
    (newclient cfgPool2 (Except.ok ("k1", "K1")) (CmdOutcome.ran 0 "") ["a"]
        emptyWorld).1
      = NCResult.provisioned none (make_conf cfgPool2 "k1" "10.0.0.2") "a" "10.0.0.2" ∧
    (newclient cfgPool2 (Except.ok ("k2", "K2")) (CmdOutcome.ran 0 "") ["b"]
        (newclient cfgPool2 (Except.ok ("k1", "K1")) (CmdOutcome.ran 0 "") ["a"]
          emptyWorld).2).1
      = NCResult.provisioned none (make_conf cfgPool2 "k2" "10.0.0.3") "b" "10.0.0.3" ∧
    (newclient cfgPool2 (Except.ok ("k3", "K3")) (CmdOutcome.ran 0 "") ["c"]
        (newclient cfgPool2 (Except.ok ("k2", "K2")) (CmdOutcome.ran 0 "") ["b"]
          (newclient cfgPool2 (Except.ok ("k1", "K1")) (CmdOutcome.ran 0 "") ["a"]
            emptyWorld).2).2).1
      = NCResult.stepError poolExhaustedMsg := by
  refine ⟨fun ip h => next_free_ip_some h, ?_, rfl, rfl, rfl⟩
  intro hall
  cases h : next_free_ip cfg used with
  | none => rfl
  | some ip =>
    obtain ⟨i, hi1, hi2, hip, hnot, _⟩ := next_free_ip_some h
    exact absurd (hip ▸ hall i hi1 hi2) hnot

/-- Witness for C2: on the two-address pool with `10.0.0.2` already used,
the allocator returns `10.0.0.3`, and that address is indeed the first
free one. -/
theorem next_free_ip_first_free_witness :
    FirstFreeInPool cfgPool2 ["10.0.0.2"] "10.0.0.3" :=
  (next_free_ip_first_free_and_exhaustion cfgPool2 ["10.0.0.2"]).1 "10.0.0.3" rfl

lemma newclient_registry_shape (cfg : Config)
    (gen : Except String (String × String)) (ap : CmdOutcome)
    (args : List String) (w : World) :
    (newclient cfg gen ap args w).2.registry = w.registry ∨
    ∃ name priv pub ip,
      next_free_ip cfg (w.registry.map Peer.address) = some ip ∧
      w.registry.any (fun p => p.name == name) = false ∧
      (newclient cfg gen ap args w).2.registry
        = w.registry ++ [Peer.mk name priv pub ip] := by
  cases args with
  | nil => left; rfl
  | cons name rest =>
    cases gen with
    | error e => left; rfl
    | ok pr =>
      obtain ⟨priv, pub⟩ := pr
      cases hip : next_free_ip cfg (w.registry.map Peer.address) with
      | none => left; simp [newclient, hip]
      | some ip =>
        cases hdup : w.registry.any (fun p => p.name == name) with
        | true => left; simp [newclient, hip, hdup]
        | false =>
          cases hap : apply_peer_to_interface cfg ap w.iface pub (ip ++ "/32") with
          | error m =>
            right; exact ⟨name, priv, pub, ip, rfl, hdup,
              by simp [newclient, hip, hdup, hap]⟩
          | ok i2 =>
            right; exact ⟨name, priv, pub, ip, rfl, hdup,
              by simp [newclient, hip, hdup, hap]⟩

lemma revoke_registry_shape (cfg : Config) (rm : CmdOutcome) (chatId : String)
    (args : List String) (w : World) :
    (revoke cfg rm chatId args w).2.registry = w.registry ∨
    ∃ name, (revoke cfg rm chatId args w).2.registry
      = w.registry.filter (fun p => p.name != name) := by
  cases args with
  | nil => left; rfl
  | cons name rest =>
    cases hadm : isAdminDenied cfg chatId with
    | true => left; simp [revoke, hadm]
    | false =>
      cases hf : w.registry.find? (fun p => p.name == name) with
      | none => left; simp [revoke, hadm, hf]
      | some row => right; exact ⟨name, by simp [revoke, hadm, hf]⟩

/-- The per-state part of claim C1: assigned addresses are pairwise
distinct and every one lies in the configured pool range. -/
def RegistryAddrsOk (cfg : Config) (w : World) : Prop :=
  (w.registry.map Peer.address).Nodup ∧ ∀ p ∈ w.registry, addrInPool cfg p.address

lemma registryAddrsOk_newclient {cfg : Config} {w : World}
    (gen : Except String (String × String)) (ap : CmdOutcome)
    (args : List String) (h : RegistryAddrsOk cfg w) :
    RegistryAddrsOk cfg (newclient cfg gen ap args w).2 := by
  rcases newclient_registry_shape cfg gen ap args w with heq | ⟨name, priv, pub, ip, hip, _, heq⟩
  · exact ⟨heq ▸ h.1, fun p hp => h.2 p (heq ▸ hp)⟩
  · obtain ⟨i, hi1, hi2, hipeq, hnot, _⟩ := next_free_ip_some hip
    constructor
    · rw [heq, List.map_append]
      refine List.nodup_append.mpr ⟨h.1, List.nodup_singleton _, ?_⟩
      intro a ha hmem
      simp only [List.map_singleton, List.mem_singleton] at hmem
      subst hmem
      exact hnot ha
    · intro p hp
      rw [heq, List.mem_append] at hp
      rcases hp with hp | hp
      · exact h.2 p hp
      · rw [List.mem_singleton] at hp
        subst hp
        exact ⟨i, hi1, hi2, hipeq⟩

lemma registryAddrsOk_revoke {cfg : Config} {w : World} (rm : CmdOutcome)
    (chatId : String) (args : List String) (h : RegistryAddrsOk cfg w) :
    RegistryAddrsOk cfg (revoke cfg rm chatId args w).2 := by
  rcases revoke_registry_shape cfg rm chatId args w with heq | ⟨name, heq⟩
  · exact ⟨heq ▸ h.1, fun p hp => h.2 p (heq ▸ hp)⟩
  · constructor
    · rw [heq]
      exact List.Nodup.sublist (List.Sublist.map Peer.address (List.filter_sublist _)) h.1
    · intro p hp
      rw [heq, List.mem_filter] at hp
      exact h.2 p hp.1

lemma registryAddrsOk_runOps {cfg : Config} (ops : List Op) :
    ∀ w : World, RegistryAddrsOk cfg w → RegistryAddrsOk cfg (runOps cfg w ops) := by
  induction ops with
  | nil => intro w h; exact h
  | cons op tl ih =>
    intro w h
    refine ih _ ?_
    cases op with
    | newc gen ap args => exact registryAddrsOk_newclient gen ap args h
    | rev rm chatId args => exact registryAddrsOk_revoke rm chatId args h

/-- C1: in every state reachable from the empty registry by a serialized
sequence of `newclient` and `revoke` operations, no two peer records
share an address, and every assigned address lies in the configured
inclusive pool range of the base network. -/
theorem reachable_registry_addresses_unique_and_in_pool
    (cfg : Config) (ops : List Op) :
    ((runOps cfg emptyWorld ops).registry.map Peer.address).Nodup ∧
    ∀ p ∈ (runOps cfg emptyWorld ops).registry, addrInPool cfg p.address :=
  registryAddrsOk_runOps ops emptyWorld ⟨List.nodup_nil, by intro p hp; cases hp⟩

lemma string_data_append (a b : String) : (a ++ b).data = a.data ++ b.data := rfl

/-- Modelled from the spec: a newline-separated `Key = Value` section of
the profile document, used as the specification-side rendering to compare
`make_conf` against. -/
def renderSection (title : String) (fields : List (String × String)) : String :=
  "[" ++ title ++ "]\n" ++
  String.join (fields.map (fun kv => kv.1 ++ " = " ++ kv.2 ++ "\n"))

/-- C5: for every peer record and server configuration, the rendered
profile is an `Interface` section followed by a `Peer` section, each a
newline-separated `Key = Value` block with the fields in exactly this
order and with these literal values: Interface has `PrivateKey`,
`Address` as `<addr>/32` and `DNS`; Peer has `PublicKey`, `Endpoint` as
`<host>:<port>`, `AllowedIPs` equal to `0.0.0.0/0, ::/0` and
`PersistentKeepalive` equal to `25`. -/
theorem make_conf_renders_interface_then_peer_sections
    (cfg : Config) (priv ip : String) :
    make_conf cfg priv ip =
      renderSection "Interface"
        [("PrivateKey", priv), ("Address", ip ++ "/32"), ("DNS", "1.1.1.1")] ++
      "\n" ++
      renderSection "Peer"
        [("PublicKey", cfg.serverPublicKey),
         ("Endpoint", cfg.serverPublicIp ++ ":" ++ toString cfg.serverWgPort),
         ("AllowedIPs", "0.0.0.0/0, ::/0"),
         ("PersistentKeepalive", "25")] := by
  apply String.ext
  simp only [make_conf, renderSection, String.join, List.map_cons, List.map_nil,
    List.foldl_cons, List.foldl_nil, string_data_append, List.append_assoc]
  rfl

/-- Peer record and world used as concrete witnesses: one registered
client `a` whose interface entry is live. -/
def peerA : Peer := Peer.mk "a" "privA" "pubA" "10.0.0.2"

/-- Concrete world holding exactly the peer `a` and its interface entry. -/
def worldA : World := World.mk [peerA] [("pubA", "10.0.0.2/32")]

/-- C3: calling `newclient` with a name that already has exactly one
registry record is rejected with the duplicate-name error at the insert
step, the state (registry and interface) is returned unchanged — so the
registry still has exactly one record of that name and the generated key
pair is discarded, never persisted. -/
theorem newclient_duplicate_name_rejected (cfg : Config) (ap : CmdOutcome)
    (name : String) (rest : List String) (priv pub ip : String) (w : World)
    (hip : next_free_ip cfg (w.registry.map Peer.address) = some ip)
    (hone : (w.registry.filter (fun p => p.name == name)).length = 1) :
    newclient cfg (Except.ok (priv, pub)) ap (name :: rest) w
      = (NCResult.duplicateName, w) ∧
    ((newclient cfg (Except.ok (priv, pub)) ap (name :: rest) w).2.registry.filter
        (fun p => p.name == name)).length = 1 := by
  have hdup : w.registry.any (fun p => p.name == name) = true := by
    rw [List.any_eq_true]
    cases hfil : w.registry.filter (fun p => p.name == name) with
    | nil => rw [hfil] at hone; simp at hone
    | cons q tl =>
      have hq : q ∈ w.registry.filter (fun p => p.name == name) := by
        rw [hfil]; exact List.mem_cons_self q tl
      rw [List.mem_filter] at hq
      exact ⟨q, hq.1, hq.2⟩
  have h1 : newclient cfg (Except.ok (priv, pub)) ap (name :: rest) w
      = (NCResult.duplicateName, w) := by
    simp [newclient, hip, hdup]
  exact ⟨h1, by rw [h1]; exact hone⟩

/-- Witness for C3: re-registering the existing client `a` is rejected
and leaves the one record named `a` in place. -/
theorem newclient_duplicate_name_rejected_witness :
    newclient cfgPool2 (Except.ok ("k9", "K9")) (CmdOutcome.ran 0 "") ["a"] worldA
      = (NCResult.duplicateName, worldA) ∧
    ((newclient cfgPool2 (Except.ok ("k9", "K9")) (CmdOutcome.ran 0 "") ["a"]
        worldA).2.registry.filter (fun p => p.name == "a")).length = 1 :=
  newclient_duplicate_name_rejected cfgPool2 (CmdOutcome.ran 0 "") "a" []
    "k9" "K9" "10.0.0.3" worldA rfl rfl

/-- C6: if the interface-application step of `newclient` fails after the
registry insert, the record is not rolled back — the reply carries the
application failure message together with the profile rendered from the
inserted record and the allocated address, and the interface is left
unmodified. -/
theorem newclient_apply_failure_keeps_record (cfg : Config) (ap : CmdOutcome)
    (name : String) (rest : List String) (priv pub ip m : String) (w : World)
    (hip : next_free_ip cfg (w.registry.map Peer.address) = some ip)
    (hfresh : w.registry.any (fun p => p.name == name) = false)
    (happly : apply_peer_to_interface cfg ap w.iface pub (ip ++ "/32")
      = Except.error m) :
    newclient cfg (Except.ok (priv, pub)) ap (name :: rest) w
      = (NCResult.provisioned (some m) (make_conf cfg priv ip) name ip,
         World.mk (w.registry ++ [Peer.mk name priv pub ip]) w.iface) := by
  simp [newclient, hip, hfresh, happly]

/-- Configuration like `cfgPool2` but with live interface mutation
enabled (`APPLY_PEER` true). -/
def cfgPool2On : Config :=
  Config.mk "SPK" "203.0.113.7" 51820 "wg0" "10.0.0." 2 3 true none

/-- Witness for C6: a `wg set` exiting non-zero after the insert leaves
the new record committed, reports the failure, and returns the profile. -/
theorem newclient_apply_failure_keeps_record_witness :
    newclient cfgPool2On (Except.ok ("k1", "K1")) (CmdOutcome.ran 1 "boom")
        ["b"] worldA
      = (NCResult.provisioned (some ("wg set failed: " ++ "boom"))
           (make_conf cfgPool2On "k1" "10.0.0.3") "b" "10.0.0.3",
         World.mk (worldA.registry ++ [Peer.mk "b" "k1" "K1" "10.0.0.3"])
           worldA.iface) :=
  newclient_apply_failure_keeps_record cfgPool2On (CmdOutcome.ran 1 "boom")
    "b" [] "k1" "K1" "10.0.0.3" ("wg set failed: " ++ "boom") worldA rfl rfl rfl

/-- C8: a `newclient` call that supplies no client name is rejected
before anything happens: the reply is the usage error, the state is
returned unchanged, and the result does not depend on the key-generation
or interface oracles — no key pair is consumed, no address allocated, no
record inserted, no interface mutation performed. -/
theorem newclient_missing_name_no_side_effects (cfg : Config)
    (gen gen2 : Except String (String × String)) (ap ap2 : CmdOutcome)
    (w : World) :
    newclient cfg gen ap [] w = (NCResult.usageError, w) ∧
    newclient cfg gen ap [] w = newclient cfg gen2 ap2 [] w :=
  ⟨rfl, rfl⟩

lemma get_config_snd (cfg : Config) (chatId : String) (args : List String)
    (w : World) : (get_config cfg chatId args w).2 = w := by
  cases args with
  | nil => rfl
  | cons name rest =>
    cases h : w.registry.find? (fun p => p.name == name) with
    | none => simp [get_config, h]
    | some row => simp [get_config, h]

/-- C9: `get_config` is read-only and idempotent — it returns the state
unchanged, a repeated call on the resulting state returns the identical
reply (the same profile text, rendered from the stored record with no
new key material and no reallocation), and a lookup of an absent name
fails with the not-found reply. -/
theorem get_config_idempotent_and_read_only (cfg : Config) (chatId : String)
    (name : String) (rest : List String) (w : World) :
    (get_config cfg chatId (name :: rest) w).2 = w ∧
    get_config cfg chatId (name :: rest)
        ((get_config cfg chatId (name :: rest) w).2)
      = get_config cfg chatId (name :: rest) w ∧
    (w.registry.find? (fun p => p.name == name) = none →
      (get_config cfg chatId (name :: rest) w).1 = GCResult.notFound) ∧
    ∀ row : Peer, w.registry.find? (fun p => p.name == name) = some row →
      (get_config cfg chatId (name :: rest) w).1
        = GCResult.configFile (name ++ ".conf")
            (make_conf cfg row.private_key row.address) := by
  refine ⟨get_config_snd cfg chatId (name :: rest) w, ?_, ?_, ?_⟩
  · rw [get_config_snd cfg chatId (name :: rest) w]
  · intro h; simp [get_config, h]
  · intro row h; simp [get_config, h]

/-- Witness for C9: reading the stored client `a` yields its profile and
leaves the state unchanged; the byte-identical profile is rendered from
the stored private key and address. -/
theorem get_config_idempotent_and_read_only_witness :
    (get_config cfgPool2 "chatX" ["a"] worldA).1
      = GCResult.configFile ("a" ++ ".conf")
          (make_conf cfgPool2 "privA" "10.0.0.2") :=
  (get_config_idempotent_and_read_only cfgPool2 "chatX" "a" [] worldA).2.2.2
    peerA rfl

/-- C10: `get_config` performs no admin gating — its reply and state do
not depend on the requesting chat identity at all, and for any stored
record it hands out the full profile whose text contains the peer's
private key; `list_clients` and `revoke`, in contrast, reject any chat
id different from the configured admin id. -/
theorem get_config_ungated_full_profile (cfg : Config) (chat1 chat2 : String)
    (args : List String) (name : String) (rest : List String) (w : World)
    (rm : CmdOutcome) (admin : String) :
    get_config cfg chat1 args w = get_config cfg chat2 args w ∧
    (∀ row : Peer, w.registry.find? (fun p => p.name == name) = some row →
      (get_config cfg chat1 (name :: rest) w).1
        = GCResult.configFile (name ++ ".conf")
            (make_conf cfg row.private_key row.address) ∧
      ∃ t : String, make_conf cfg row.private_key row.address
        = "[Interface]\nPrivateKey = " ++ (row.private_key ++ t)) ∧
    (cfg.adminChatId = some admin → chat1 ≠ admin →
      (list_clients cfg chat1 w).1 = LCResult.accessDenied ∧
      (revoke cfg rm chat1 (name :: rest) w).1 = RVResult.accessDenied) := by
  have hgate : cfg.adminChatId = some admin → chat1 ≠ admin →
      isAdminDenied cfg chat1 = true := by
    intro ha hne
    simp [isAdminDenied, ha, hne]
  refine ⟨rfl, ?_, ?_⟩
  · intro row h
    refine ⟨by simp [get_config, h], ?_⟩
    refine ⟨"\nAddress = " ++ (row.address ++
      ("/32\nDNS = 1.1.1.1\n\n[Peer]\nPublicKey = " ++ (cfg.serverPublicKey ++
        ("\nEndpoint = " ++ (cfg.serverPublicIp ++ (":" ++
          (toString cfg.serverWgPort ++
            "\nAllowedIPs = 0.0.0.0/0, ::/0\nPersistentKeepalive = 25\n"))))))), ?_⟩
    apply String.ext
    simp only [make_conf, string_data_append, List.append_assoc]
  · intro ha hne
    constructor
    · simp [list_clients, hgate ha hne]
    · simp [revoke, hgate ha hne]

/-- Configuration with an admin chat id configured, used to exhibit the
gating of `list_clients` and `revoke`. -/
def cfgAdmin : Config :=
  Config.mk "SPK" "203.0.113.7" 51820 "wg0" "10.0.0." 2 3 false (some "42")

/-- Witness for C10: a non-admin chat (`"7"`) still receives the full
profile of client `a` from `get_config`, with the private key embedded
in the text, while the same chat is denied by `list_clients` and
`revoke`. -/
theorem get_config_ungated_full_profile_witness :
    ((get_config cfgAdmin "7" ["a"] worldA).1
      = GCResult.configFile ("a" ++ ".conf")
          (make_conf cfgAdmin "privA" "10.0.0.2") ∧
     ∃ t : String, make_conf cfgAdmin "privA" "10.0.0.2"
       = "[Interface]\nPrivateKey = " ++ ("privA" ++ t)) ∧
    (list_clients cfgAdmin "7" worldA).1 = LCResult.accessDenied ∧
    (revoke cfgAdmin (CmdOutcome.ran 0 "") "7" ["a"] worldA).1
      = RVResult.accessDenied :=
  ⟨(get_config_ungated_full_profile cfgAdmin "7" "7" ["a"] "a" [] worldA
      (CmdOutcome.ran 0 "") "42").2.1 peerA rfl,
   (get_config_ungated_full_profile cfgAdmin "7" "7" ["a"] "a" [] worldA
      (CmdOutcome.ran 0 "") "42").2.2 rfl (by decide)⟩

/-- C7 counterexample: revoking client `a` while the removal command
exits with status 1 (so the interface entry is not removed — it is still
present in the final state) produces a reply whose removal-failure field
is `none`: the failure is not reported to the caller, contradicting the
claim that every failure of the interface-removal step is reported.  The
registry record is nevertheless deleted. -/
theorem revoke_nonzero_exit_removal_failure_unreported :
    removeApplied (CmdOutcome.ran 1 "boom") = false ∧
    (revoke cfgPool2On (CmdOutcome.ran 1 "boom") "7" ["a"] worldA).1
      = RVResult.revoked "a" "10.0.0.2" none ∧
    (revoke cfgPool2On (CmdOutcome.ran 1 "boom") "7" ["a"] worldA).2
      = World.mk [] [("pubA", "10.0.0.2/32")] :=
  ⟨rfl, rfl, rfl⟩

/-- C7 amended: during `revoke` of an existing peer with live mutation
enabled, the registry record is always deleted, never blocked by a
removal failure; a removal failure that raises an exception is reported
to the caller, while a removal command that runs but exits non-zero is
silently ignored (its return code is never inspected), and the interface
entry is removed only when the command exits with status 0. -/
theorem revoke_deletes_record_regardless_of_removal_failure
    (cfg : Config) (rm : CmdOutcome) (chatId name : String)
    (rest : List String) (w : World) (row : Peer)
    (hadm : isAdminDenied cfg chatId = false)
    (hfind : w.registry.find? (fun p => p.name == name) = some row)
    (happly : cfg.applyPeer = true) :
    revoke cfg rm chatId (name :: rest) w
      = (RVResult.revoked name row.address (removeReport rm),
         World.mk (w.registry.filter (fun p => p.name != name))
           (if removeApplied rm then wgRemovePeer w.iface row.public_key
            else w.iface)) := by
  simp [revoke, hadm, hfind, happly]

/-- Witness for C7 (amended): a removal that fails with a spawn
exception is reported via the reply's failure field, the interface entry
survives, and the registry record is deleted all the same. -/
theorem revoke_deletes_record_witness :
    revoke cfgPool2On (CmdOutcome.exc "spawnfail") "7" ["a"] worldA
      = (RVResult.revoked "a" "10.0.0.2" (some "spawnfail"),
         World.mk [] [("pubA", "10.0.0.2/32")]) := by
  have h := revoke_deletes_record_regardless_of_removal_failure cfgPool2On
    (CmdOutcome.exc "spawnfail") "7" "a" [] worldA peerA rfl rfl rfl
  exact h

lemma mem_wgSetPeer {iface : List (String × String)} {pub aip : String}
    {e : String × String} (h : e ∈ wgSetPeer iface pub aip) :
    e ∈ iface ∨ e.1 = pub := by
  unfold wgSetPeer at h
  by_cases hany : (iface.any fun x => x.1 == pub) = true
  · rw [if_pos hany] at h
    obtain ⟨x, hx, hxe⟩ := List.mem_map.mp h
    by_cases hxp : (x.1 == pub) = true
    · rw [if_pos hxp] at hxe; right; rw [← hxe]
    · rw [if_neg hxp] at hxe; left; rw [← hxe]; exact hx
  · rw [if_neg hany] at h
    rcases List.mem_append.mp h with h | h
    · exact Or.inl h
    · right; rw [List.mem_singleton] at h; rw [h]

lemma apply_peer_to_interface_ok {cfg : Config} {ap : CmdOutcome}
    {iface : List (String × String)} {pub aip : String}
    {i2 : List (String × String)}
    (h : apply_peer_to_interface cfg ap iface pub aip = Except.ok i2) :
    i2 = iface ∨ i2 = wgSetPeer iface pub aip := by
  unfold apply_peer_to_interface at h
  cases hcf : cfg.applyPeer with
  | false => rw [hcf] at h; simp at h; exact Or.inl h.symm
  | true =>
    rw [hcf] at h
    cases ap with
    | exc m => simp at h
    | ran rc err =>
      cases rc with
      | zero => simp at h; exact Or.inr h.symm
      | succ n => simp at h

lemma peer_eq_of_name_eq {l : List Peer} (hn : (l.map Peer.name).Nodup)
    {p q : Peer} (hp : p ∈ l) (hq : q ∈ l) (h : p.name = q.name) : p = q := by
  induction l with
  | nil => cases hp
  | cons a tl ih =>
    rw [List.map_cons, List.nodup_cons] at hn
    rcases List.mem_cons.mp hp with rfl | hp2
    · rcases List.mem_cons.mp hq with rfl | hq2
      · rfl
      · refine absurd ?_ hn.1
        rw [h]
        exact List.mem_map_of_mem Peer.name hq2
    · rcases List.mem_cons.mp hq with rfl | hq2
      · refine absurd ?_ hn.1
        rw [← h]
        exact List.mem_map_of_mem Peer.name hp2
      · exact ih hn.2 hp2 hq2

/-- Run invariant backing claim C4: registry names are unique, the
interface's peer table is a subset of the registry, and when live
mutation is disabled the interface table is empty (it is never written). -/
def GoodIface (cfg : Config) (w : World) : Prop :=
  (w.registry.map Peer.name).Nodup ∧ IfaceSubset w ∧
    (cfg.applyPeer = false → w.iface = [])

lemma goodIface_newclient {cfg : Config} {w : World}
    (gen : Except String (String × String)) (ap : CmdOutcome)
    (args : List String) (h : GoodIface cfg w) :
    GoodIface cfg (newclient cfg gen ap args w).2 := by
  cases args with
  | nil => exact h
  | cons name rest =>
    cases gen with
    | error e => exact h
    | ok pr =>
      obtain ⟨priv, pub⟩ := pr
      cases hip : next_free_ip cfg (w.registry.map Peer.address) with
      | none => simpa [newclient, hip] using h
      | some ip =>
        cases hdup : w.registry.any (fun p => p.name == name) with
        | true => simpa [newclient, hip, hdup] using h
        | false =>
          have hfresh : ∀ p ∈ w.registry, p.name ≠ name := by
            intro p hp
            have hb := List.any_eq_false.mp hdup p hp
            simpa using hb
          have hnodup2 :
              ((w.registry ++ [Peer.mk name priv pub ip]).map Peer.name).Nodup := by
            rw [List.map_append]
            refine List.nodup_append.mpr ⟨h.1, List.nodup_singleton _, ?_⟩
            intro a ha hmem
            simp only [List.map_singleton, List.mem_singleton] at hmem
            subst hmem
            obtain ⟨q, hq, hqe⟩ := List.mem_map.mp ha
            exact hfresh q hq hqe
          cases hap : apply_peer_to_interface cfg ap w.iface pub (ip ++ "/32") with
          | error m =>
            have hw : (newclient cfg (Except.ok (priv, pub)) ap (name :: rest) w).2
                = World.mk (w.registry ++ [Peer.mk name priv pub ip]) w.iface := by
              simp [newclient, hip, hdup, hap]
            rw [hw]
            refine ⟨hnodup2, ?_, h.2.2⟩
            intro e he
            obtain ⟨p, hp, hpe⟩ := h.2.1 e he
            exact ⟨p, List.mem_append_left _ hp, hpe⟩
          | ok i2 =>
            have hw : (newclient cfg (Except.ok (priv, pub)) ap (name :: rest) w).2
                = World.mk (w.registry ++ [Peer.mk name priv pub ip]) i2 := by
              simp [newclient, hip, hdup, hap]
            rw [hw]
            refine ⟨hnodup2, ?_, ?_⟩
            · intro e he
              rcases apply_peer_to_interface_ok hap with hi | hi
              · subst hi
                obtain ⟨p, hp, hpe⟩ := h.2.1 e he
                exact ⟨p, List.mem_append_left _ hp, hpe⟩
              · subst hi
                rcases mem_wgSetPeer he with he2 | he2
                · obtain ⟨p, hp, hpe⟩ := h.2.1 e he2
                  exact ⟨p, List.mem_append_left _ hp, hpe⟩
                · refine ⟨Peer.mk name priv pub ip, ?_, he2.symm⟩
                  exact List.mem_append_right _ (List.mem_singleton_self _)
            · intro hoff
              have hi : w.iface = i2 := by
                have hap2 := hap
                simp [apply_peer_to_interface, hoff] at hap2
                exact hap2
              rw [← hi]
              exact h.2.2 hoff

lemma goodIface_revoke {cfg : Config} {w : World} (chatId : String)
    (args : List String) (stderr : String) (h : GoodIface cfg w) :
    GoodIface cfg (revoke cfg (CmdOutcome.ran 0 stderr) chatId args w).2 := by
  cases args with
  | nil => exact h
  | cons name rest =>
    cases hadm : isAdminDenied cfg chatId with
    | true => simpa [revoke, hadm] using h
    | false =>
      cases hfind : w.registry.find? (fun p => p.name == name) with
      | none => simpa [revoke, hadm, hfind] using h
      | some row =>
        have hrowmem : row ∈ w.registry := List.mem_of_find?_eq_some hfind
        have hrowname : row.name = name := by
          have hb := List.find?_some hfind
          simpa using hb
        have hnodup2 :
            ((w.registry.filter (fun p => p.name != name)).map Peer.name).Nodup :=
          List.Nodup.sublist (List.Sublist.map Peer.name (List.filter_sublist _)) h.1
        cases hcf : cfg.applyPeer with
        | false =>
          have hw : (revoke cfg (CmdOutcome.ran 0 stderr) chatId (name :: rest) w).2
              = World.mk (w.registry.filter (fun p => p.name != name)) w.iface := by
            simp [revoke, hadm, hfind, hcf]
          rw [hw]
          have hiface : w.iface = [] := h.2.2 hcf
          refine ⟨hnodup2, ?_, fun _ => hiface⟩
          intro e he
          rw [hiface] at he
          cases he
        | true =>
          have hw : (revoke cfg (CmdOutcome.ran 0 stderr) chatId (name :: rest) w).2
              = World.mk (w.registry.filter (fun p => p.name != name))
                  (wgRemovePeer w.iface row.public_key) := by
            simp [revoke, hadm, hfind, hcf, removeApplied]
          rw [hw]
          refine ⟨hnodup2, ?_, fun hoff => by rw [hoff] at hcf; cases hcf⟩
          intro e he
          rw [wgRemovePeer, List.mem_filter] at he
          have hne : e.1 ≠ row.public_key := by
            have hb := he.2
            simpa using hb
          obtain ⟨p, hp, hpe⟩ := h.2.1 e he.1
          have hpname : p.name ≠ name := by
            intro heq
            have : p = row := peer_eq_of_name_eq h.1 hp hrowmem (heq.trans hrowname.symm)
            rw [this] at hpe
            exact hne hpe.symm
          refine ⟨p, ?_, hpe⟩
          rw [List.mem_filter]
          exact ⟨hp, by simpa using hpname⟩

/-- Whether the operation's interface-removal invocation (if any)
succeeded: `newclient` operations always qualify, a `revoke` operation
qualifies only when its removal command ran and exited with status 0. -/
def opRemoveOk : Op → Bool
  | Op.newc _ _ _ => true
  | Op.rev (CmdOutcome.ran 0 _) _ _ => true
  | Op.rev _ _ _ => false

lemma goodIface_runOps {cfg : Config} :
    ∀ (ops : List Op) (w : World), (∀ op ∈ ops, opRemoveOk op = true) →
      GoodIface cfg w → GoodIface cfg (runOps cfg w ops)
  | [], _, _, h => h
  | op :: tl, w, hops, h => by
    have h1 : GoodIface cfg (runOp cfg w op) := by
      cases op with
      | newc gen ap args => exact goodIface_newclient gen ap args h
      | rev rm chatId args =>
        have hok : opRemoveOk (Op.rev rm chatId args) = true :=
          hops _ (List.mem_cons_self _ _)
        cases rm with
        | exc m => simp [opRemoveOk] at hok
        | ran rc err =>
          cases rc with
          | zero => exact goodIface_revoke chatId args err h
          | succ n => simp [opRemoveOk] at hok
    exact goodIface_runOps tl (runOp cfg w op)
      (fun o ho => hops o (List.mem_cons_of_mem _ ho)) h1

/-- The two operations of the C4 counterexample: provision client `a`
(insert plus successful interface application), then revoke it while the
removal command fails with exit status 1. -/
def c4Ops : List Op :=
  [Op.newc (Except.ok ("privA", "pubA")) (CmdOutcome.ran 0 "") ["a"],
   Op.rev (CmdOutcome.ran 1 "boom") "7" ["a"]]

/-- C4 counterexample: with live mutation enabled, after provisioning
`a` and then revoking it while the interface-removal command fails, the
interface still holds the entry for `a` but the registry record is gone —
the interface is not a subset of the registry between operations, so the
claim as stated (subset at every point) is false. -/
theorem iface_entry_outlives_registry_record :
    ¬ IfaceSubset (runOps cfgPool2On emptyWorld c4Ops) := by
  intro h
  have hw : runOps cfgPool2On emptyWorld c4Ops
      = World.mk [] [("pubA", "10.0.0.2/32")] := rfl
  rw [hw] at h
  obtain ⟨p, hp, _⟩ := h ("pubA", "10.0.0.2/32") (List.mem_singleton_self _)
  cases hp

/-- C4 amended: in every run from the empty state in which each
`revoke`'s interface-removal command succeeds, the interface's peer
table is a subset of the registry at every point between operations —
`newclient` commits the registry insert before touching the interface,
and a successful removal precedes the registry delete. -/
theorem iface_subset_of_registry_when_removals_succeed
    (cfg : Config) (ops : List Op)
    (hops : ∀ op ∈ ops, opRemoveOk op = true) :
    IfaceSubset (runOps cfg emptyWorld ops) :=
  (goodIface_runOps ops emptyWorld hops
    ⟨List.nodup_nil, fun e he => absurd he (List.not_mem_nil e),
     fun _ => rfl⟩).2.1

/-- Witness for C4 (amended): after provisioning `a` with a successful
interface application, the interface is a subset of the registry. -/
theorem iface_subset_of_registry_witness :
    IfaceSubset (runOps cfgPool2On emptyWorld
      [Op.newc (Except.ok ("privA", "pubA")) (CmdOutcome.ran 0 "") ["a"]]) :=
  iface_subset_of_registry_when_removals_succeed cfgPool2On
    [Op.newc (Except.ok ("privA", "pubA")) (CmdOutcome.ran 0 "") ["a"]]
    (by decide)

end WgBot
